import Mathlib

set_option linter.unusedSectionVars false

/-!
Shallow embedding of the joint-kinematics core of the `nphysics` repository.

The source under verification is `src/joint/pin_slot_joint.rs` (the composite
prismatic+revolute `PinSlotJoint` and its `Joint` implementation) and
`examples2d/nphysics_testbed2d/src/engine.rs` (the shape-dispatch code of the
graphics manager).  The bodies of the primitive joints (`PrismaticJoint`,
`RevoluteJoint`) are not part of the provided sources; only their callers are.
Those primitives are therefore modelled from the specification, and every such
definition carries a doc comment starting with `Modelled from the spec:`.

The Rust code is generic over a scalar `N : Real`; the embedding is generic
over a linear ordered field `K`.  The trigonometric functions provided by the
`Real` trait are passed explicitly as a `TrigOps K` record, so that all
definitions stay computable and theorems can instantiate `K := ℝ` with the
genuine `Real.cos` / `Real.sin`.
-/

namespace NPhysics

/-- 3-dimensional vector over the scalar field (nalgebra `Vector3<N>`). -/
structure Vec3 (K : Type) where
  x : K
  y : K
  z : K
  deriving DecidableEq, Repr

namespace Vec3

variable {K : Type} [Field K]

def add (a b : Vec3 K) : Vec3 K := ⟨a.x + b.x, a.y + b.y, a.z + b.z⟩

def sub (a b : Vec3 K) : Vec3 K := ⟨a.x - b.x, a.y - b.y, a.z - b.z⟩

def neg (a : Vec3 K) : Vec3 K := ⟨-a.x, -a.y, -a.z⟩

def smul (c : K) (a : Vec3 K) : Vec3 K := ⟨c * a.x, c * a.y, c * a.z⟩

def zero : Vec3 K := ⟨0, 0, 0⟩

def cross (a b : Vec3 K) : Vec3 K :=
  ⟨a.y * b.z - a.z * b.y, a.z * b.x - a.x * b.z, a.x * b.y - a.y * b.x⟩

@[simp] theorem add_x (a b : Vec3 K) : (a.add b).x = a.x + b.x := rfl
@[simp] theorem add_y (a b : Vec3 K) : (a.add b).y = a.y + b.y := rfl
@[simp] theorem add_z (a b : Vec3 K) : (a.add b).z = a.z + b.z := rfl
@[simp] theorem sub_x (a b : Vec3 K) : (a.sub b).x = a.x - b.x := rfl
@[simp] theorem sub_y (a b : Vec3 K) : (a.sub b).y = a.y - b.y := rfl
@[simp] theorem sub_z (a b : Vec3 K) : (a.sub b).z = a.z - b.z := rfl
@[simp] theorem neg_x (a : Vec3 K) : a.neg.x = -a.x := rfl
@[simp] theorem neg_y (a : Vec3 K) : a.neg.y = -a.y := rfl
@[simp] theorem neg_z (a : Vec3 K) : a.neg.z = -a.z := rfl
@[simp] theorem smul_x (c : K) (a : Vec3 K) : (smul c a).x = c * a.x := rfl
@[simp] theorem smul_y (c : K) (a : Vec3 K) : (smul c a).y = c * a.y := rfl
@[simp] theorem smul_z (c : K) (a : Vec3 K) : (smul c a).z = c * a.z := rfl
@[simp] theorem zero_x : (zero : Vec3 K).x = 0 := rfl
@[simp] theorem zero_y : (zero : Vec3 K).y = 0 := rfl
@[simp] theorem zero_z : (zero : Vec3 K).z = 0 := rfl
@[simp] theorem cross_x (a b : Vec3 K) : (a.cross b).x = a.y * b.z - a.z * b.y := rfl
@[simp] theorem cross_y (a b : Vec3 K) : (a.cross b).y = a.z * b.x - a.x * b.z := rfl
@[simp] theorem cross_z (a b : Vec3 K) : (a.cross b).z = a.x * b.y - a.y * b.x := rfl

@[ext] theorem vecExt {a b : Vec3 K} (hx : a.x = b.x) (hy : a.y = b.y) (hz : a.z = b.z) :
    a = b := by
  cases a; cases b; simp_all

end Vec3

/-- 3×3 matrix over the scalar field, used for rotation parts of isometries. -/
structure Mat3 (K : Type) where
  m00 : K
  m01 : K
  m02 : K
  m10 : K
  m11 : K
  m12 : K
  m20 : K
  m21 : K
  m22 : K
  deriving DecidableEq, Repr

namespace Mat3

variable {K : Type} [Field K]

def id : Mat3 K := ⟨1, 0, 0, 0, 1, 0, 0, 0, 1⟩

def mulVec (m : Mat3 K) (v : Vec3 K) : Vec3 K :=
  ⟨m.m00 * v.x + m.m01 * v.y + m.m02 * v.z,
   m.m10 * v.x + m.m11 * v.y + m.m12 * v.z,
   m.m20 * v.x + m.m21 * v.y + m.m22 * v.z⟩

def mul (a b : Mat3 K) : Mat3 K :=
  ⟨a.m00 * b.m00 + a.m01 * b.m10 + a.m02 * b.m20,
   a.m00 * b.m01 + a.m01 * b.m11 + a.m02 * b.m21,
   a.m00 * b.m02 + a.m01 * b.m12 + a.m02 * b.m22,
   a.m10 * b.m00 + a.m11 * b.m10 + a.m12 * b.m20,
   a.m10 * b.m01 + a.m11 * b.m11 + a.m12 * b.m21,
   a.m10 * b.m02 + a.m11 * b.m12 + a.m12 * b.m22,
   a.m20 * b.m00 + a.m21 * b.m10 + a.m22 * b.m20,
   a.m20 * b.m01 + a.m21 * b.m11 + a.m22 * b.m21,
   a.m20 * b.m02 + a.m21 * b.m12 + a.m22 * b.m22⟩

def smul (c : K) (a : Mat3 K) : Mat3 K :=
  ⟨c * a.m00, c * a.m01, c * a.m02,
   c * a.m10, c * a.m11, c * a.m12,
   c * a.m20, c * a.m21, c * a.m22⟩

def add (a b : Mat3 K) : Mat3 K :=
  ⟨a.m00 + b.m00, a.m01 + b.m01, a.m02 + b.m02,
   a.m10 + b.m10, a.m11 + b.m11, a.m12 + b.m12,
   a.m20 + b.m20, a.m21 + b.m21, a.m22 + b.m22⟩

@[ext] theorem matExt {a b : Mat3 K}
    (h00 : a.m00 = b.m00) (h01 : a.m01 = b.m01) (h02 : a.m02 = b.m02)
    (h10 : a.m10 = b.m10) (h11 : a.m11 = b.m11) (h12 : a.m12 = b.m12)
    (h20 : a.m20 = b.m20) (h21 : a.m21 = b.m21) (h22 : a.m22 = b.m22) : a = b := by
  cases a; cases b; simp_all

@[simp] theorem mulVec_zero (m : Mat3 K) : m.mulVec Vec3.zero = Vec3.zero := by
  simp [mulVec, Vec3.zero]

@[simp] theorem id_mul (m : Mat3 K) : Mat3.id.mul m = m := by
  cases m; simp [Mat3.id, mul]

@[simp] theorem id_mulVec (v : Vec3 K) : Mat3.id.mulVec v = v := by
  cases v; simp [Mat3.id, mulVec]

end Mat3

/-- Cross-product (skew-symmetric) matrix of a vector: `crossMat a * v = a × v`. -/
def crossMat {K : Type} [Field K] (a : Vec3 K) : Mat3 K :=
  ⟨0, -a.z, a.y,
   a.z, 0, -a.x,
   -a.y, a.x, 0⟩

/-- The trigonometric operations supplied by the Rust `Real` scalar trait. -/
structure TrigOps (K : Type) where
  cos : K → K
  sin : K → K

/-- Rodrigues rotation matrix: rotation about the unit axis `a` by angle `θ`,
`R = I + sin θ · [a]ₓ + (1 − cos θ) · [a]ₓ²`. -/
def rotAxisAngle {K : Type} [Field K] (T : TrigOps K) (a : Vec3 K) (θ : K) : Mat3 K :=
  (Mat3.id.add ((crossMat a).smul (T.sin θ))).add
    (((crossMat a).mul (crossMat a)).smul (1 - T.cos θ))

/-- Rigid isometry (nalgebra `Isometry3<N>`): rotation part and translation part.
Composition `a * b` acts as `b` first, then `a`: `(a * b) p = a.rot (b.rot p + b.trans) + a.trans`. -/
structure Iso3 (K : Type) where
  rot : Mat3 K
  trans : Vec3 K
  deriving DecidableEq, Repr

namespace Iso3

variable {K : Type} [Field K]

/-- Isometry composition, the `*` of nalgebra isometries. -/
def comp (a b : Iso3 K) : Iso3 K :=
  ⟨a.rot.mul b.rot, (a.rot.mulVec b.trans).add a.trans⟩

/-- Pure translation isometry. -/
def ofTranslation (t : Vec3 K) : Iso3 K := ⟨Mat3.id, t⟩

@[simp] theorem comp_rot (a b : Iso3 K) : (a.comp b).rot = a.rot.mul b.rot := rfl
@[simp] theorem comp_trans (a b : Iso3 K) :
    (a.comp b).trans = (a.rot.mulVec b.trans).add a.trans := rfl
@[simp] theorem ofTranslation_rot (t : Vec3 K) : (ofTranslation t).rot = Mat3.id := rfl
@[simp] theorem ofTranslation_trans (t : Vec3 K) : (ofTranslation t).trans = t := rfl

end Iso3

/-- Spatial velocity (nphysics `math::Velocity`): linear and angular part. -/
structure Velocity (K : Type) where
  linear : Vec3 K
  angular : Vec3 K
  deriving DecidableEq, Repr

namespace Velocity

variable {K : Type} [Field K]

def add (a b : Velocity K) : Velocity K := ⟨a.linear.add b.linear, a.angular.add b.angular⟩

def smul (c : K) (a : Velocity K) : Velocity K := ⟨Vec3.smul c a.linear, Vec3.smul c a.angular⟩

def zero : Velocity K := ⟨Vec3.zero, Vec3.zero⟩

@[simp] theorem add_linear (a b : Velocity K) : (a.add b).linear = a.linear.add b.linear := rfl
@[simp] theorem add_angular (a b : Velocity K) : (a.add b).angular = a.angular.add b.angular := rfl
@[simp] theorem smul_linear (c : K) (a : Velocity K) :
    (smul c a).linear = Vec3.smul c a.linear := rfl
@[simp] theorem smul_angular (c : K) (a : Velocity K) :
    (smul c a).angular = Vec3.smul c a.angular := rfl
@[simp] theorem zero_linear : (zero : Velocity K).linear = Vec3.zero := rfl
@[simp] theorem zero_angular : (zero : Velocity K).angular = Vec3.zero := rfl

@[ext] theorem velExt {a b : Velocity K} (hl : a.linear = b.linear)
    (ha : a.angular = b.angular) : a = b := by
  cases a; cases b; simp_all

@[simp] theorem smul_zero_vel (c : K) : smul c (zero : Velocity K) = zero := by
  ext <;> simp [Vec3.smul, Vec3.zero]

end Velocity

/-- Rotate both parts of a spatial velocity into the frame of `tr`
(the effect of applying an isometry `transform` to a Jacobian column). -/
def transformVelocity {K : Type} [Field K] (tr : Iso3 K) (v : Velocity K) : Velocity K :=
  ⟨tr.rot.mulVec v.linear, tr.rot.mulVec v.angular⟩

/-- Integration parameters (`solver::IntegrationParameters`); only the
timestep `dt` is consumed by the code under verification. -/
structure IntegrationParameters (K : Type) where
  dt : K

/-- Mutable column-range view into the shared Jacobian buffer
(`math::JacobianSliceMut`).  The underlying flat buffer is a function from
column index to column; `first` and `ncols` delimit the view. -/
structure JacobianSliceMut (K : Type) where
  buf : Nat → Velocity K
  first : Nat
  ncols : Nat

namespace JacobianSliceMut

variable {K : Type} [Field K]

/-- Sub-view of `n` columns starting at column `i` of this view
(nalgebra `columns_mut(i, n)`). -/
def columns_mut (s : JacobianSliceMut K) (i n : Nat) : JacobianSliceMut K :=
  ⟨s.buf, s.first + i, n⟩

/-- Write column `i` of the view (mutation of the shared underlying buffer). -/
def setColumn (s : JacobianSliceMut K) (i : Nat) (v : Velocity K) : JacobianSliceMut K :=
  ⟨fun j => if j = s.first + i then v else s.buf j, s.first, s.ncols⟩

@[simp] theorem columns_mut_buf (s : JacobianSliceMut K) (i n : Nat) :
    (s.columns_mut i n).buf = s.buf := rfl

@[simp] theorem columns_mut_first (s : JacobianSliceMut K) (i n : Nat) :
    (s.columns_mut i n).first = s.first + i := rfl

@[simp] theorem setColumn_buf (s : JacobianSliceMut K) (i : Nat) (v : Velocity K) (j : Nat) :
    (s.setColumn i v).buf j = if j = s.first + i then v else s.buf j := rfl

@[simp] theorem setColumn_first (s : JacobianSliceMut K) (i : Nat) (v : Velocity K) :
    (s.setColumn i v).first = s.first := rfl

end JacobianSliceMut

/-- The two kinds of constraint records appended during constraint assembly:
bilateral (equality, motors) and unilateral (inequality, limits). -/
inductive ConstraintKind where
  | bilateral
  | unilateral
  deriving DecidableEq, Repr

/-- One row appended to the constraint set, remembering the coordinate offset
`dof_id` it targets and the row slot `jacobian_id` it consumed. -/
structure ConstraintRecord where
  kind : ConstraintKind
  assembly_id : Nat
  dof_id : Nat
  jacobian_id : Nat
  deriving DecidableEq, Repr

/-- Append one constraint record per kind in `kinds`, each consuming the next
row slot: the counter advances by one per appended row. -/
def appendRows (assembly_id dof_id : Nat) (kinds : List ConstraintKind)
    (ground_jacobian_id : Nat) (out : List ConstraintRecord) :
    Nat × List ConstraintRecord :=
  match kinds with
  | [] => (ground_jacobian_id, out)
  | k :: rest =>
      appendRows assembly_id dof_id rest (ground_jacobian_id + 1)
        (out ++ [⟨k, assembly_id, dof_id, ground_jacobian_id⟩])

/-- Modelled from the spec: the source of `PrismaticJoint` is not among the
provided files (only its caller `PinSlotJoint` is).  Per the spec, a prismatic
joint owns one scalar generalized coordinate (`offset`, translation along a
fixed unit `axis` set at construction) together with an optional motor and
optional lower/upper limits. -/
structure PrismaticJoint (K : Type) where
  axis : Vec3 K
  offset : K
  motorEnabled : Bool
  minOffset : Option K
  maxOffset : Option K

/-- Modelled from the spec: the source of `RevoluteJoint` is not among the
provided files.  Per the spec, a revolute joint owns one scalar generalized
coordinate (`angle`, rotation about a fixed unit `axis`), optional motor and
limits, and velocity-dependent internal Jacobian terms refreshed by
`update_jacobians` (the cached `jacobian`, `jacobian_dot` and
`jacobian_dot_veldiff` spatial velocities). -/
structure RevoluteJoint (K : Type) where
  axis : Vec3 K
  angle : K
  cachedJacobian : Velocity K
  cachedJacobianDot : Velocity K
  cachedJacobianDotVeldiff : Velocity K
  motorEnabled : Bool
  minAngle : Option K
  maxAngle : Option K

namespace PrismaticJoint

variable {K : Type} [LinearOrderedField K]

/-- Modelled from the spec: construction stores the axis and the initial
coordinate; motor and limits start disabled. -/
def new (axis : Vec3 K) (position : K) : PrismaticJoint K :=
  ⟨axis, position, false, none, none⟩

/-- Modelled from the spec: each primitive joint owns exactly one scalar
coordinate. -/
def ndofs (_ : PrismaticJoint K) : Nat := 1

/-- Modelled from the spec: `translation()` is the pure translation by
`offset` along the joint axis ("translate by offset along axis"). -/
def translation (j : PrismaticJoint K) : Iso3 K :=
  Iso3.ofTranslation (Vec3.smul j.offset j.axis)

/-- Modelled from the spec: `body_to_parent` is the transform from the parent
link's joint frame to the child's frame given the fixed geometric offsets —
the joint anchor sits at `parent_shift` on the parent side and at `body_shift`
on the body side, so the transform is
`T(parent_shift) ∘ T(offset·axis) ∘ T(body_shift)⁻¹`. -/
def body_to_parent (j : PrismaticJoint K) (parent_shift body_shift : Vec3 K) : Iso3 K :=
  Iso3.ofTranslation ((parent_shift.add (Vec3.smul j.offset j.axis)).sub body_shift)

/-- Modelled from the spec: the prismatic Jacobian is the fixed axis itself,
independent of the current velocity, so `update_jacobians` has nothing to
recompute. -/
def update_jacobians (j : PrismaticJoint K) (_body_shift : Vec3 K) (_vels : List K) :
    PrismaticJoint K := j

/-- Modelled from the spec: the single unit-response column is the axis as a
linear velocity direction, expressed via `transform`; it is written into
column 0 of the caller-supplied view. -/
def jacobian (j : PrismaticJoint K) (transform : Iso3 K) (out : JacobianSliceMut K) :
    JacobianSliceMut K :=
  out.setColumn 0 (transformVelocity transform ⟨j.axis, Vec3.zero⟩)

/-- Modelled from the spec: the prismatic Jacobian is constant (fixed axis),
so its time derivative column is zero. -/
def jacobian_dot (_ : PrismaticJoint K) (_transform : Iso3 K) (out : JacobianSliceMut K) :
    JacobianSliceMut K :=
  out.setColumn 0 Velocity.zero

/-- Modelled from the spec: the velocity-directional derivative of the (zero)
Jacobian derivative is zero. -/
def jacobian_dot_veldiff_mul_coordinates (_ : PrismaticJoint K) (_transform : Iso3 K)
    (_vels : List K) (out : JacobianSliceMut K) : JacobianSliceMut K :=
  out.setColumn 0 Velocity.zero

/-- Modelled from the spec: the linear map from the joint's generalized
velocity (its slot-0 slice entry) to the child's spatial velocity, along the
axis. -/
def jacobian_mul_coordinates (j : PrismaticJoint K) (vels : List K) : Velocity K :=
  Velocity.smul (vels.getD 0 0) ⟨j.axis, Vec3.zero⟩

/-- Modelled from the spec: the bias (Coriolis/centrifugal) contribution of a
fixed-axis prismatic joint vanishes identically, its Jacobian being constant. -/
def jacobian_dot_mul_coordinates (_ : PrismaticJoint K) (_vels : List K) : Velocity K :=
  Velocity.zero

/-- Modelled from the spec: semi-implicit integration of the owned coordinate,
`offset at t+dt = offset at t + velocity-at-(t+dt) · dt`, reading slot 0 of the
supplied slice. -/
def apply_displacement (j : PrismaticJoint K) (params : IntegrationParameters K)
    (vels : List K) : PrismaticJoint K :=
  { j with offset := j.offset + vels.getD 0 0 * params.dt }

/-- Modelled from the spec: one bilateral row if the motor is enabled, one
unilateral row per limit active at the current coordinate. -/
def rowKinds (j : PrismaticJoint K) : List ConstraintKind :=
  (if j.motorEnabled then [ConstraintKind.bilateral] else []) ++
    (match j.minOffset with
     | some m => if j.offset ≤ m then [ConstraintKind.unilateral] else []
     | none => []) ++
    (match j.maxOffset with
     | some m => if m ≤ j.offset then [ConstraintKind.unilateral] else []
     | none => [])

/-- Modelled from the spec: active motor/limit row count. -/
def nconstraints (j : PrismaticJoint K) : Nat := j.rowKinds.length

/-- Modelled from the spec: append this joint's motor/limit rows to the
constraint set, each row using `dof_id` as the coordinate offset and consuming
the next row slot starting at `ground_jacobian_id`, advancing the counter by
the number of rows used. -/
def build_constraints (j : PrismaticJoint K) (assembly_id dof_id : Nat)
    (ground_jacobian_id : Nat) (vel_constraints : List ConstraintRecord) :
    Nat × List ConstraintRecord :=
  appendRows assembly_id dof_id j.rowKinds ground_jacobian_id vel_constraints

end PrismaticJoint

namespace RevoluteJoint

variable {K : Type} [LinearOrderedField K]

/-- Modelled from the spec: construction stores the axis and the initial
coordinate; cached Jacobian terms start at zero until refreshed; motor and
limits start disabled. -/
def new (axis : Vec3 K) (angle : K) : RevoluteJoint K :=
  ⟨axis, angle, Velocity.zero, Velocity.zero, Velocity.zero, false, none, none⟩

/-- Modelled from the spec: each primitive joint owns exactly one scalar
coordinate. -/
def ndofs (_ : RevoluteJoint K) : Nat := 1

/-- The rotation of the joint: about its fixed axis by its current angle. -/
def rotation (T : TrigOps K) (j : RevoluteJoint K) : Mat3 K :=
  rotAxisAngle T j.axis j.angle

/-- Modelled from the spec: `body_to_parent` with the joint anchor at
`parent_shift` on the parent side and `body_shift` on the body side:
`T(parent_shift) ∘ R(angle) ∘ T(body_shift)⁻¹`. -/
def body_to_parent (T : TrigOps K) (j : RevoluteJoint K)
    (parent_shift body_shift : Vec3 K) : Iso3 K :=
  ⟨j.rotation T, parent_shift.sub ((j.rotation T).mulVec body_shift)⟩

/-- Modelled from the spec: refresh the velocity-dependent internal Jacobian
terms.  With `r = −R·body_shift` the child origin relative to the anchor, the
unit-response column is `⟨axis × r, axis⟩`, its time derivative is
`θ̇ · ⟨axis × (axis × r), 0⟩` with `θ̇` read from slot 0 of the supplied
slice, and the velocity-directional derivative drops the `θ̇` factor. -/
def update_jacobians (T : TrigOps K) (j : RevoluteJoint K) (body_shift : Vec3 K)
    (vels : List K) : RevoluteJoint K :=
  let r := ((j.rotation T).mulVec body_shift).neg
  { j with
    cachedJacobian := ⟨j.axis.cross r, j.axis⟩
    cachedJacobianDot :=
      Velocity.smul (vels.getD 0 0) ⟨j.axis.cross (j.axis.cross r), Vec3.zero⟩
    cachedJacobianDotVeldiff := ⟨j.axis.cross (j.axis.cross r), Vec3.zero⟩ }

/-- Modelled from the spec: write the cached unit-response column, expressed
via `transform`, into column 0 of the caller-supplied view. -/
def jacobian (j : RevoluteJoint K) (transform : Iso3 K) (out : JacobianSliceMut K) :
    JacobianSliceMut K :=
  out.setColumn 0 (transformVelocity transform j.cachedJacobian)

/-- Modelled from the spec: write the cached Jacobian-derivative column. -/
def jacobian_dot (j : RevoluteJoint K) (transform : Iso3 K) (out : JacobianSliceMut K) :
    JacobianSliceMut K :=
  out.setColumn 0 (transformVelocity transform j.cachedJacobianDot)

/-- Modelled from the spec: scale the cached velocity-directional derivative by
the slot-0 entry of the supplied slice and write it into column 0. -/
def jacobian_dot_veldiff_mul_coordinates (j : RevoluteJoint K) (transform : Iso3 K)
    (vels : List K) (out : JacobianSliceMut K) : JacobianSliceMut K :=
  out.setColumn 0
    (Velocity.smul (vels.getD 0 0) (transformVelocity transform j.cachedJacobianDotVeldiff))

/-- Modelled from the spec: the child's spatial velocity induced by the slot-0
generalized velocity, through the cached unit-response column. -/
def jacobian_mul_coordinates (j : RevoluteJoint K) (vels : List K) : Velocity K :=
  Velocity.smul (vels.getD 0 0) j.cachedJacobian

/-- Modelled from the spec: the bias acceleration contribution, through the
cached Jacobian-derivative column. -/
def jacobian_dot_mul_coordinates (j : RevoluteJoint K) (vels : List K) : Velocity K :=
  Velocity.smul (vels.getD 0 0) j.cachedJacobianDot

/-- Modelled from the spec: semi-implicit integration of the owned coordinate,
`angle at t+dt = angle at t + velocity-at-(t+dt) · dt`, reading slot 0 of the
supplied slice. -/
def apply_displacement (j : RevoluteJoint K) (params : IntegrationParameters K)
    (vels : List K) : RevoluteJoint K :=
  { j with angle := j.angle + vels.getD 0 0 * params.dt }

/-- Modelled from the spec: one bilateral row if the motor is enabled, one
unilateral row per limit active at the current coordinate. -/
def rowKinds (j : RevoluteJoint K) : List ConstraintKind :=
  (if j.motorEnabled then [ConstraintKind.bilateral] else []) ++
    (match j.minAngle with
     | some m => if j.angle ≤ m then [ConstraintKind.unilateral] else []
     | none => []) ++
    (match j.maxAngle with
     | some m => if m ≤ j.angle then [ConstraintKind.unilateral] else []
     | none => [])

/-- Modelled from the spec: active motor/limit row count. -/
def nconstraints (j : RevoluteJoint K) : Nat := j.rowKinds.length

/-- Modelled from the spec: append this joint's motor/limit rows, using
`dof_id` as the coordinate offset and advancing `ground_jacobian_id` by the
rows used. -/
def build_constraints (j : RevoluteJoint K) (assembly_id dof_id : Nat)
    (ground_jacobian_id : Nat) (vel_constraints : List ConstraintRecord) :
    Nat × List ConstraintRecord :=
  appendRows assembly_id dof_id j.rowKinds ground_jacobian_id vel_constraints

end RevoluteJoint

/-- `PinSlotJoint<N>` (src/joint/pin_slot_joint.rs): a composite joint owning a
prismatic and a revolute sub-joint by value. -/
structure PinSlotJoint (K : Type) where
  prism : PrismaticJoint K
  revo : RevoluteJoint K

namespace PinSlotJoint

variable {K : Type} [LinearOrderedField K]

/-- `PinSlotJoint::new`: build the prismatic sub-joint on `axis_v` at
`position` and the revolute sub-joint on `axis_w` at `angle`. -/
def new (axis_v axis_w : Vec3 K) (position angle : K) : PinSlotJoint K :=
  ⟨PrismaticJoint.new axis_v position, RevoluteJoint.new axis_w angle⟩

/-- `PinSlotJoint::offset`: delegate to the prismatic sub-joint. -/
def offset (j : PinSlotJoint K) : K := j.prism.offset

/-- `PinSlotJoint::angle`: delegate to the revolute sub-joint. -/
def angle (j : PinSlotJoint K) : K := j.revo.angle

/-- `Joint::ndofs` for `PinSlotJoint`: the literal `2` of the source. -/
def ndofs (_ : PinSlotJoint K) : Nat := 2

/-- `Joint::body_to_parent` for `PinSlotJoint`:
`self.prism.translation() * self.revo.body_to_parent(parent_shift, body_shift)`. -/
def body_to_parent (T : TrigOps K) (j : PinSlotJoint K)
    (parent_shift body_shift : Vec3 K) : Iso3 K :=
  (j.prism.translation).comp (j.revo.body_to_parent T parent_shift body_shift)

/-- `Joint::update_jacobians` for `PinSlotJoint`: the prismatic sub-joint is
passed the full `vels` slice, the revolute sub-joint the one-element slice
`[vels[1]]`. -/
def update_jacobians (T : TrigOps K) (j : PinSlotJoint K) (body_shift : Vec3 K)
    (vels : List K) : PinSlotJoint K :=
  ⟨j.prism.update_jacobians body_shift vels,
   RevoluteJoint.update_jacobians T j.revo body_shift [vels.getD 1 0]⟩

/-- `Joint::jacobian` for `PinSlotJoint`: the prismatic sub-joint writes into
`out.columns_mut(0, 1)` and the revolute sub-joint into `out.columns_mut(1, 1)`,
both views over the same underlying buffer. -/
def jacobian (j : PinSlotJoint K) (transform : Iso3 K) (out : JacobianSliceMut K) :
    JacobianSliceMut K :=
  let o1 := j.prism.jacobian transform (out.columns_mut 0 1)
  let o2 := j.revo.jacobian transform
    (JacobianSliceMut.columns_mut ⟨o1.buf, out.first, out.ncols⟩ 1 1)
  ⟨o2.buf, out.first, out.ncols⟩

/-- `Joint::jacobian_dot` for `PinSlotJoint`: same column-range discipline as
`jacobian`. -/
def jacobian_dot (j : PinSlotJoint K) (transform : Iso3 K) (out : JacobianSliceMut K) :
    JacobianSliceMut K :=
  let o1 := j.prism.jacobian_dot transform (out.columns_mut 0 1)
  let o2 := j.revo.jacobian_dot transform
    (JacobianSliceMut.columns_mut ⟨o1.buf, out.first, out.ncols⟩ 1 1)
  ⟨o2.buf, out.first, out.ncols⟩

/-- `Joint::jacobian_dot_veldiff_mul_coordinates` for `PinSlotJoint`: the
prismatic sub-joint is shown the full `vels` and column range `[0,1)`, the
revolute sub-joint the slice `[vels[1]]` and column range `[1,2)`. -/
def jacobian_dot_veldiff_mul_coordinates (j : PinSlotJoint K) (transform : Iso3 K)
    (vels : List K) (out : JacobianSliceMut K) : JacobianSliceMut K :=
  let o1 := j.prism.jacobian_dot_veldiff_mul_coordinates transform vels
    (out.columns_mut 0 1)
  let o2 := j.revo.jacobian_dot_veldiff_mul_coordinates transform [vels.getD 1 0]
    (JacobianSliceMut.columns_mut ⟨o1.buf, out.first, out.ncols⟩ 1 1)
  ⟨o2.buf, out.first, out.ncols⟩

/-- `Joint::jacobian_mul_coordinates` for `PinSlotJoint`:
`self.prism.jacobian_mul_coordinates(vels) + self.revo.jacobian_mul_coordinates(&[vels[1]])`. -/
def jacobian_mul_coordinates (j : PinSlotJoint K) (vels : List K) : Velocity K :=
  (j.prism.jacobian_mul_coordinates vels).add
    (j.revo.jacobian_mul_coordinates [vels.getD 1 0])

/-- `Joint::jacobian_dot_mul_coordinates` for `PinSlotJoint`: the source omits
the prismatic term with the comment "NOTE: The following is zero." and returns
only `self.revo.jacobian_dot_mul_coordinates(&[vels[1]])`. -/
def jacobian_dot_mul_coordinates (j : PinSlotJoint K) (vels : List K) : Velocity K :=
  j.revo.jacobian_dot_mul_coordinates [vels.getD 1 0]

/-- `Joint::apply_displacement` for `PinSlotJoint`: the prismatic sub-joint is
passed the full `vels` slice, the revolute sub-joint `[vels[1]]`. -/
def apply_displacement (j : PinSlotJoint K) (params : IntegrationParameters K)
    (vels : List K) : PinSlotJoint K :=
  ⟨j.prism.apply_displacement params vels,
   j.revo.apply_displacement params [vels.getD 1 0]⟩

/-- `Joint::nconstraints` for `PinSlotJoint`: sum of the sub-joint counts. -/
def nconstraints (j : PinSlotJoint K) : Nat :=
  j.prism.nconstraints + j.revo.nconstraints

/-- `Joint::build_constraints` for `PinSlotJoint`: the prismatic sub-joint is
called with the base `dof_id`, the revolute sub-joint with `dof_id + 1`, and
the single `ground_jacobian_id` counter is threaded through both calls. -/
def build_constraints (j : PinSlotJoint K) (assembly_id dof_id : Nat)
    (ground_jacobian_id : Nat) (vel_constraints : List ConstraintRecord) :
    Nat × List ConstraintRecord :=
  let r1 := j.prism.build_constraints assembly_id dof_id ground_jacobian_id
    vel_constraints
  j.revo.build_constraints assembly_id (dof_id + 1) r1.1 r1.2

end PinSlotJoint

/-! Embedding of the shape-dispatch part of
`examples2d/nphysics_testbed2d/src/engine.rs` (`GraphicsManager`). -/

/-- 2D isometry (nalgebra `Iso2<f32>`): rotation `(rc, rs) = (cos, sin)` and
translation `(tx, ty)`. -/
structure Iso2 (K : Type) where
  rc : K
  rs : K
  tx : K
  ty : K
  deriving DecidableEq, Repr

namespace Iso2

variable {K : Type} [Field K]

/-- The identity isometry, `na::one()`. -/
def one : Iso2 K := ⟨1, 0, 0, 0⟩

/-- Isometry composition `a * b`: `b` acts first. -/
def comp (a b : Iso2 K) : Iso2 K :=
  ⟨a.rc * b.rc - a.rs * b.rs, a.rs * b.rc + a.rc * b.rs,
   a.rc * b.tx - a.rs * b.ty + a.tx, a.rs * b.tx + a.rc * b.ty + a.ty⟩

end Iso2

/-- RGB color with 8-bit channels (`Pnt3<u8>`). -/
structure Color where
  r : Nat
  g : Nat
  b : Nat
  deriving DecidableEq, Repr

/-- `WorldObject<f32>`: either a rigid body or a sensor (a sensor optionally
has a parent rigid body).  `uid` is the stable identity used as hash-map key;
`margin` is the collision margin consulted when building scene nodes. -/
inductive WorldObject (K : Type) where
  | rigidBody (uid : Nat) (margin : K)
  | sensor (uid : Nat) (margin : K) (parent : Option Nat)
  deriving DecidableEq, Repr

namespace WorldObject

variable {K : Type}

def uid : WorldObject K → Nat
  | rigidBody u _ => u
  | sensor u _ _ => u

def margin : WorldObject K → K
  | rigidBody _ m => m
  | sensor _ m _ => m

end WorldObject

/-- The closed set of `ncollide` shape variants that `add_shape` can receive
(`Plane2`, `Ball2`, `Cuboid2`, `Convex2`, `Segment2`, `Compound2`,
`Polyline2`, and the two variants the dispatch declares but never handles,
`Cylinder2` and `Cone2`). -/
inductive Shape (K : Type) where
  | plane
  | ball (radius : K)
  | cuboid (hx hy : K)
  | convex (points : List (K × K))
  | segment (a b : K × K)
  | compound (shapes : List (Iso2 K × Shape K))
  | polyline (vertices : List (K × K)) (indices : List (Nat × Nat))
  | cylinder (half_height radius : K)
  | cone (half_height radius : K)
  deriving Repr

/-- `SceneNode<'a>`: the graphics node pushed into `out` per handled shape. -/
inductive SceneNode (K : Type) where
  | ballNode (uid : Nat) (delta : Iso2 K) (radius : K) (color : Color)
  | boxNode (uid : Nat) (delta : Iso2 K) (rx ry : K) (color : Color)
  | linesNode (uid : Nat) (delta : Iso2 K) (vertices : List (K × K))
      (indices : List (Nat × Nat)) (color : Color)
  | segmentNode (uid : Nat) (delta : Iso2 K) (a b : K × K) (color : Color)
  deriving Repr

/-- The state of `GraphicsManager` consulted by `add_shape`: the color cache
`obj2color` (an association list keyed by uid) and the seeded random generator,
modelled as a pure stream `rand` read at position `randPos`. -/
structure GraphicsManager (K : Type) where
  obj2color : List (Nat × Color)
  rand : Nat → Color
  randPos : Nat

namespace GraphicsManager

variable {K : Type} [Field K]

/-- `GraphicsManager::color_for_object`: return the cached color for the
object's uid if present; otherwise draw a fresh random color, override it with
the parent's cached color when the object is a sensor whose parent already has
one, cache it and return it. -/
def color_for_object (gm : GraphicsManager K) (object : WorldObject K) :
    Color × GraphicsManager K :=
  match (gm.obj2color.find? fun p => p.1 = object.uid) with
  | some p => (p.2, gm)
  | none =>
      let drawn := gm.rand gm.randPos
      let color :=
        match object with
        | WorldObject.sensor _ _ (some parent) =>
            match (gm.obj2color.find? fun p => p.1 = parent) with
            | some p => p.2
            | none => drawn
        | _ => drawn
      (color,
       { gm with obj2color := (object.uid, color) :: gm.obj2color,
                 randPos := gm.randPos + 1 })

/-- `GraphicsManager::add_ball`: push a `BallNode` with the margin-inflated
radius and the object's color. -/
def add_ball (gm : GraphicsManager K) (object : WorldObject K) (delta : Iso2 K)
    (radius : K) (out : List (SceneNode K)) :
    GraphicsManager K × List (SceneNode K) :=
  let cg := gm.color_for_object object
  (cg.2, out ++ [SceneNode.ballNode object.uid delta (radius + object.margin) cg.1])

/-- `GraphicsManager::add_box`: push a `BoxNode` with margin-inflated half
extents. -/
def add_box (gm : GraphicsManager K) (object : WorldObject K) (delta : Iso2 K)
    (rx ry : K) (out : List (SceneNode K)) :
    GraphicsManager K × List (SceneNode K) :=
  let cg := gm.color_for_object object
  (cg.2, out ++ [SceneNode.boxNode object.uid delta (rx + object.margin)
    (ry + object.margin) cg.1])

/-- `GraphicsManager::add_convex`: push a `LinesNode` over the hull points with
the cyclic index pairs `(x, (x+1) % limit)`. -/
def add_convex (gm : GraphicsManager K) (object : WorldObject K) (delta : Iso2 K)
    (points : List (K × K)) (out : List (SceneNode K)) :
    GraphicsManager K × List (SceneNode K) :=
  let cg := gm.color_for_object object
  let limit := points.length
  let is := (List.range limit).map fun x => (x, (x + 1) % limit)
  (cg.2, out ++ [SceneNode.linesNode object.uid delta points is cg.1])

/-- `GraphicsManager::add_lines`: push a `LinesNode` with the polyline's own
vertices and indices. -/
def add_lines (gm : GraphicsManager K) (object : WorldObject K) (delta : Iso2 K)
    (vertices : List (K × K)) (indices : List (Nat × Nat))
    (out : List (SceneNode K)) : GraphicsManager K × List (SceneNode K) :=
  let cg := gm.color_for_object object
  (cg.2, out ++ [SceneNode.linesNode object.uid delta vertices indices cg.1])

/-- `GraphicsManager::add_segment`: push a `SegmentNode` with the segment's
endpoints. -/
def add_segment (gm : GraphicsManager K) (object : WorldObject K) (delta : Iso2 K)
    (a b : K × K) (out : List (SceneNode K)) :
    GraphicsManager K × List (SceneNode K) :=
  let cg := gm.color_for_object object
  (cg.2, out ++ [SceneNode.segmentNode object.uid delta a b cg.1])

mutual

/-- `GraphicsManager::add_shape`: runtime dispatch over the shape variant.
Planes produce no node (`add_plane` is empty), balls/boxes/convexes/segments/
polylines push one node each, compounds recurse over their children with the
accumulated `delta * t`, and any variant without a handler reaches the final
`else` branch: `panic!("Not yet implemented.")`, embedded as `Except.error`. -/
def add_shape (gm : GraphicsManager K) (object : WorldObject K) (delta : Iso2 K)
    (shape : Shape K) (out : List (SceneNode K)) :
    Except String (GraphicsManager K × List (SceneNode K)) :=
  match shape with
  | Shape.plane => Except.ok (gm, out)
  | Shape.ball radius => Except.ok (gm.add_ball object delta radius out)
  | Shape.cuboid hx hy => Except.ok (gm.add_box object delta hx hy out)
  | Shape.convex points => Except.ok (gm.add_convex object delta points out)
  | Shape.segment a b => Except.ok (gm.add_segment object delta a b out)
  | Shape.compound shapes => add_shape_list gm object delta shapes out
  | Shape.polyline vertices indices =>
      Except.ok (gm.add_lines object delta vertices indices out)
  | Shape.cylinder _ _ => Except.error "Not yet implemented."
  | Shape.cone _ _ => Except.error "Not yet implemented."

/-- The compound loop of `add_shape`: for each child `(t, s)` recurse with
`delta * t`, threading manager state, output list and any panic. -/
def add_shape_list (gm : GraphicsManager K) (object : WorldObject K)
    (delta : Iso2 K) (shapes : List (Iso2 K × Shape K))
    (out : List (SceneNode K)) :
    Except String (GraphicsManager K × List (SceneNode K)) :=
  match shapes with
  | [] => Except.ok (gm, out)
  | (t, s) :: rest =>
      match add_shape gm object (delta.comp t) s out with
      | Except.ok (gm1, out1) => add_shape_list gm1 object delta rest out1
      | Except.error e => Except.error e

end

end GraphicsManager

/-! Helper lemmas shared by the verification theorems. -/

@[simp] theorem Vec3.zero_add_v {K : Type} [Field K] (a : Vec3 K) :
    Vec3.zero.add a = a := by
  ext <;> simp

@[simp] theorem Vec3.add_zero_v {K : Type} [Field K] (a : Vec3 K) :
    a.add Vec3.zero = a := by
  ext <;> simp

@[simp] theorem Velocity.zero_add_vel {K : Type} [Field K] (a : Velocity K) :
    Velocity.zero.add a = a := by
  ext <;> simp

@[ext] theorem Iso3.isoExt {K : Type} [Field K] {a b : Iso3 K}
    (hr : a.rot = b.rot) (ht : a.trans = b.trans) : a = b := by
  cases a; cases b; simp_all

/-! Theorems settling the claims. -/

/-- C8: for every `PinSlotJoint`, `ndofs()` returns 2, equal to the sum of the
sub-joints' `ndofs()` (1 prismatic + 1 revolute), and the value is unchanged by
the mutating operations `update_jacobians` and `apply_displacement`. -/
theorem pin_slot_ndofs_two_and_constant {K : Type} [LinearOrderedField K]
    (j : PinSlotJoint K) (T : TrigOps K) (body_shift : Vec3 K) (vels vels' : List K)
    (params : IntegrationParameters K) :
    PinSlotJoint.ndofs j = 2 ∧
    PinSlotJoint.ndofs j = PrismaticJoint.ndofs j.prism + RevoluteJoint.ndofs j.revo ∧
    PinSlotJoint.ndofs (PinSlotJoint.update_jacobians T j body_shift vels)
      = PinSlotJoint.ndofs j ∧
    PinSlotJoint.ndofs (PinSlotJoint.apply_displacement j params vels')
      = PinSlotJoint.ndofs j :=
  ⟨rfl, rfl, rfl, rfl⟩

/-- C10: the joint built by `PinSlotJoint::new(axis_v, axis_w, position, angle)`
reports `offset() == position` and `angle() == angle`, reading the prismatic
sub-joint's offset and the revolute sub-joint's angle respectively. -/
theorem pin_slot_new_offset_angle {K : Type} [LinearOrderedField K]
    (axis_v axis_w : Vec3 K) (position angle : K) :
    PinSlotJoint.offset (PinSlotJoint.new axis_v axis_w position angle) = position ∧
    PinSlotJoint.angle (PinSlotJoint.new axis_v axis_w position angle) = angle :=
  ⟨rfl, rfl⟩

/-- C5: `apply_displacement` performs one semi-implicit step per owned
coordinate: the new offset is the old offset plus `vels[0] * dt` and the new
angle is the old angle plus `vels[1] * dt`. -/
theorem pin_slot_apply_displacement_semi_implicit {K : Type} [LinearOrderedField K]
    (j : PinSlotJoint K) (params : IntegrationParameters K) (vels : List K)
    (h : vels.length = 2) :
    (PinSlotJoint.apply_displacement j params vels).offset
      = j.offset + vels.getD 0 0 * params.dt ∧
    (PinSlotJoint.apply_displacement j params vels).angle
      = j.angle + vels.getD 1 0 * params.dt :=
  ⟨rfl, rfl⟩

/-- Witness for C5, realizing the claim's concrete instance: from offset `2.0`
and angle `π/2`, `apply_displacement` with `vels = [1.0, 0.0]` and `dt = 1.0`
makes the offset `3.0` and leaves the angle `π/2`. -/
theorem pin_slot_apply_displacement_semi_implicit_witness :
    ([(1 : ℝ), 0].length = 2) ∧
    (PinSlotJoint.apply_displacement
        (PinSlotJoint.new ⟨1, 0, 0⟩ ⟨0, 0, 1⟩ (2 : ℝ) (Real.pi / 2)) ⟨1⟩ [1, 0]).offset
      = 3 ∧
    (PinSlotJoint.apply_displacement
        (PinSlotJoint.new ⟨1, 0, 0⟩ ⟨0, 0, 1⟩ (2 : ℝ) (Real.pi / 2)) ⟨1⟩ [1, 0]).angle
      = Real.pi / 2 := by
  have h := pin_slot_apply_displacement_semi_implicit
    (PinSlotJoint.new ⟨1, 0, 0⟩ ⟨0, 0, 1⟩ (2 : ℝ) (Real.pi / 2)) ⟨1⟩ [1, 0] rfl
  refine ⟨rfl, ?_, ?_⟩
  · rw [h.1]
    norm_num [PinSlotJoint.new, PinSlotJoint.offset, PrismaticJoint.new]
  · rw [h.2]
    norm_num [PinSlotJoint.new, PinSlotJoint.angle, RevoluteJoint.new]

/-- C2: in every delegating operation taking a generalized-velocity slice,
each sub-joint is shown only the velocity component of its own coordinate
slot: the prismatic sub-joint's outcome is determined by `vels[0]` alone and
the revolute sub-joint is given exactly `[vels[1]]`. -/
theorem pin_slot_subjoint_velocity_slots {K : Type} [LinearOrderedField K]
    (T : TrigOps K) (j : PinSlotJoint K) (body_shift : Vec3 K) (vels : List K)
    (params : IntegrationParameters K) (transform : Iso3 K)
    (out : JacobianSliceMut K) :
    (PinSlotJoint.update_jacobians T j body_shift vels).prism
      = j.prism.update_jacobians body_shift [vels.getD 0 0] ∧
    (PinSlotJoint.update_jacobians T j body_shift vels).revo
      = RevoluteJoint.update_jacobians T j.revo body_shift [vels.getD 1 0] ∧
    (j.apply_displacement params vels).prism
      = j.prism.apply_displacement params [vels.getD 0 0] ∧
    (j.apply_displacement params vels).revo
      = j.revo.apply_displacement params [vels.getD 1 0] ∧
    j.jacobian_mul_coordinates vels
      = (j.prism.jacobian_mul_coordinates [vels.getD 0 0]).add
          (j.revo.jacobian_mul_coordinates [vels.getD 1 0]) ∧
    j.jacobian_dot_veldiff_mul_coordinates transform vels out
      = j.jacobian_dot_veldiff_mul_coordinates transform
          [vels.getD 0 0, vels.getD 1 0] out :=
  ⟨rfl, rfl, rfl, rfl, rfl, rfl⟩

/-- C3: the optimized `jacobian_dot_mul_coordinates` of `PinSlotJoint`, which
computes only the revolute term, equals the full sum of both sub-joints' bias
contributions, the prismatic sub-joint's contribution being exactly zero for
every velocity input. -/
theorem pin_slot_jacobian_dot_mul_coordinates_full_sum {K : Type}
    [LinearOrderedField K] (j : PinSlotJoint K) (vels : List K) :
    j.jacobian_dot_mul_coordinates vels
      = (j.prism.jacobian_dot_mul_coordinates vels).add
          (j.revo.jacobian_dot_mul_coordinates [vels.getD 1 0]) ∧
    ∀ (p : PrismaticJoint K) (w : List K),
      p.jacobian_dot_mul_coordinates w = Velocity.zero := by
  refine ⟨?_, fun p w => rfl⟩
  show j.revo.jacobian_dot_mul_coordinates [vels.getD 1 0]
    = Velocity.zero.add (j.revo.jacobian_dot_mul_coordinates [vels.getD 1 0])
  rw [Velocity.zero_add_vel]

/-- C7: the map from generalized velocities to the child link's spatial
velocity is additive: for 2-component velocity slices,
`jacobian_mul_coordinates(v1) + jacobian_mul_coordinates(v2)
  = jacobian_mul_coordinates(v1 + v2)`. -/
theorem pin_slot_jacobian_mul_coordinates_additive {K : Type}
    [LinearOrderedField K] (j : PinSlotJoint K) (v1 v2 : List K)
    (h1 : v1.length = 2) (h2 : v2.length = 2) :
    (j.jacobian_mul_coordinates v1).add (j.jacobian_mul_coordinates v2)
      = j.jacobian_mul_coordinates (List.zipWith (· + ·) v1 v2) := by
  match v1, v2, h1, h2 with
  | [a, b], [c, d], _, _ =>
    refine Velocity.velExt ?_ ?_ <;>
      refine Vec3.vecExt ?_ ?_ ?_ <;>
        simp [PinSlotJoint.jacobian_mul_coordinates,
          PrismaticJoint.jacobian_mul_coordinates,
          RevoluteJoint.jacobian_mul_coordinates, Velocity.add, Velocity.smul,
          Vec3.add, Vec3.smul] <;> ring

/-- Witness for C7 at a concrete joint and concrete slices over `ℚ`. -/
theorem pin_slot_jacobian_mul_coordinates_additive_witness :
    ([(1 : ℚ), 2].length = 2) ∧ ([(3 : ℚ), 4].length = 2) ∧
    ((PinSlotJoint.new ⟨1, 0, 0⟩ ⟨0, 0, 1⟩ (2 : ℚ) 0).jacobian_mul_coordinates
        [1, 2]).add
      ((PinSlotJoint.new ⟨1, 0, 0⟩ ⟨0, 0, 1⟩ (2 : ℚ) 0).jacobian_mul_coordinates
        [3, 4])
      = (PinSlotJoint.new ⟨1, 0, 0⟩ ⟨0, 0, 1⟩ (2 : ℚ) 0).jacobian_mul_coordinates
          (List.zipWith (· + ·) [1, 2] [3, 4]) :=
  ⟨rfl, rfl,
    pin_slot_jacobian_mul_coordinates_additive
      (PinSlotJoint.new ⟨1, 0, 0⟩ ⟨0, 0, 1⟩ (2 : ℚ) 0) [1, 2] [3, 4] rfl rfl⟩

/-- C9: when `add_shape` encounters a shape variant with no handler —
`Cylinder2` or `Cone2`, whose type aliases the dispatch declares but never
downcasts to — it reaches the final `else` branch and panics with
"Not yet implemented." instead of returning normally. -/
theorem add_shape_unhandled_variant_panics {K : Type} [LinearOrderedField K]
    (gm : GraphicsManager K) (object : WorldObject K) (delta : Iso2 K)
    (out : List (SceneNode K)) (half_height radius : K) :
    gm.add_shape object delta (Shape.cylinder half_height radius) out
      = Except.error "Not yet implemented." ∧
    gm.add_shape object delta (Shape.cone half_height radius) out
      = Except.error "Not yet implemented." ∧
    (∀ res, gm.add_shape object delta (Shape.cylinder half_height radius) out
      ≠ Except.ok res) ∧
    (∀ res, gm.add_shape object delta (Shape.cone half_height radius) out
      ≠ Except.ok res) := by
  refine ⟨?_, ?_, ?_, ?_⟩ <;>
    simp [GraphicsManager.add_shape]

/-- C4: `jacobian` (and `jacobian_dot`) of `PinSlotJoint` writes the prismatic
column only into sub-range `[0,1)` of `out` and the revolute column only into
sub-range `[1,2)`; every other column of the underlying buffer — the sentinel
values — is unchanged, and neither sub-joint's write clobbers the other's. -/
theorem pin_slot_jacobian_disjoint_column_ranges {K : Type} [LinearOrderedField K]
    (j : PinSlotJoint K) (transform : Iso3 K) (out : JacobianSliceMut K) :
    (j.jacobian transform out).buf out.first
      = transformVelocity transform ⟨j.prism.axis, Vec3.zero⟩ ∧
    (j.jacobian transform out).buf (out.first + 1)
      = transformVelocity transform j.revo.cachedJacobian ∧
    (∀ i, i ≠ out.first → i ≠ out.first + 1 →
      (j.jacobian transform out).buf i = out.buf i) ∧
    (j.jacobian_dot transform out).buf out.first = Velocity.zero ∧
    (j.jacobian_dot transform out).buf (out.first + 1)
      = transformVelocity transform j.revo.cachedJacobianDot ∧
    (∀ i, i ≠ out.first → i ≠ out.first + 1 →
      (j.jacobian_dot transform out).buf i = out.buf i) := by
  refine ⟨?_, ?_, fun i hi1 hi2 => ?_, ?_, ?_, fun i hi1 hi2 => ?_⟩ <;>
    simp only [PinSlotJoint.jacobian, PinSlotJoint.jacobian_dot,
      PrismaticJoint.jacobian, PrismaticJoint.jacobian_dot, RevoluteJoint.jacobian,
      RevoluteJoint.jacobian_dot, JacobianSliceMut.setColumn,
      JacobianSliceMut.columns_mut]
  · rw [if_neg (by omega), if_pos (by omega)]
  · simp
  · rw [if_neg (by omega), if_neg (by omega)]
  · rw [if_neg (by omega), if_pos (by omega)]
  · simp
  · rw [if_neg (by omega), if_neg (by omega)]

/-- The records appended for a list of row kinds when the first free row slot
is `g`: one record per kind, with consecutive row slots. -/
def recordsFor (assembly_id dof_id g : Nat) :
    List ConstraintKind → List ConstraintRecord
  | [] => []
  | k :: rest =>
      ⟨k, assembly_id, dof_id, g⟩ :: recordsFor assembly_id dof_id (g + 1) rest

/-- Closed form of `appendRows`: the counter advances by one per row and the
appended records carry consecutive row slots starting at `g`. -/
theorem appendRows_spec (assembly_id dof_id : Nat) :
    ∀ (kinds : List ConstraintKind) (g : Nat) (out : List ConstraintRecord),
      appendRows assembly_id dof_id kinds g out
        = (g + kinds.length, out ++ recordsFor assembly_id dof_id g kinds)
  | [], g, out => by simp [appendRows, recordsFor]
  | k :: rest, g, out => by
      rw [appendRows, appendRows_spec assembly_id dof_id rest (g + 1)]
      refine Prod.ext ?_ ?_
      · simp [List.length_cons]
        omega
      · simp [recordsFor, List.append_assoc]

/-- C6: `build_constraints` of `PinSlotJoint` calls the prismatic sub-joint
with the base `dof_id` and the revolute sub-joint with `dof_id + 1`, threading
the single `ground_jacobian_id` counter through both calls; each callee
advances it by the rows it used, so the appended records consume consecutive
row slots starting at the initial counter value and the final counter is the
initial value plus both sub-joints' row counts. -/
theorem pin_slot_build_constraints_offsets_and_shared_counter {K : Type}
    [LinearOrderedField K] (j : PinSlotJoint K)
    (assembly_id dof_id ground_jacobian_id : Nat) (cs : List ConstraintRecord) :
    j.build_constraints assembly_id dof_id ground_jacobian_id cs
      = j.revo.build_constraints assembly_id (dof_id + 1)
          (j.prism.build_constraints assembly_id dof_id ground_jacobian_id cs).1
          (j.prism.build_constraints assembly_id dof_id ground_jacobian_id cs).2 ∧
    (j.build_constraints assembly_id dof_id ground_jacobian_id cs).1
      = ground_jacobian_id + j.prism.nconstraints + j.revo.nconstraints ∧
    (j.build_constraints assembly_id dof_id ground_jacobian_id cs).2
      = cs ++ recordsFor assembly_id dof_id ground_jacobian_id j.prism.rowKinds
          ++ recordsFor assembly_id (dof_id + 1)
              (ground_jacobian_id + j.prism.nconstraints) j.revo.rowKinds := by
  refine ⟨rfl, ?_, ?_⟩ <;>
    simp [PinSlotJoint.build_constraints, PrismaticJoint.build_constraints,
      RevoluteJoint.build_constraints, PrismaticJoint.nconstraints,
      RevoluteJoint.nconstraints, appendRows_spec, List.append_assoc]

/-- C1 counterexample: at axes `axis_v = (1,0,0)`, `axis_w = (0,0,1)`,
offset `2.0`, angle `π/2`, with `parent_shift = (1,0,0)` and
`body_shift = (0,0,0)`, `body_to_parent` of the composite does NOT equal the
product of the two primitive joints' own `body_to_parent` outputs on the same
shift inputs: the source composes `prism.translation()` — not
`prism.body_to_parent(...)` — with the revolute transform, so the product
double-counts `parent_shift`. -/
theorem pin_slot_body_to_parent_product_counterexample :
    ¬ (PinSlotJoint.body_to_parent (⟨Real.cos, Real.sin⟩ : TrigOps ℝ)
        (PinSlotJoint.new ⟨1, 0, 0⟩ ⟨0, 0, 1⟩ 2 (Real.pi / 2)) ⟨1, 0, 0⟩ ⟨0, 0, 0⟩
      = (PrismaticJoint.body_to_parent
            (PinSlotJoint.new ⟨1, 0, 0⟩ ⟨0, 0, 1⟩ (2 : ℝ) (Real.pi / 2)).prism
            ⟨1, 0, 0⟩ ⟨0, 0, 0⟩).comp
          (RevoluteJoint.body_to_parent (⟨Real.cos, Real.sin⟩ : TrigOps ℝ)
            (PinSlotJoint.new ⟨1, 0, 0⟩ ⟨0, 0, 1⟩ (2 : ℝ) (Real.pi / 2)).revo
            ⟨1, 0, 0⟩ ⟨0, 0, 0⟩)) := by
  intro h
  have hx := congrArg (fun iso => iso.trans.x) h
  simp [PinSlotJoint.body_to_parent, PinSlotJoint.new, PrismaticJoint.new,
    RevoluteJoint.new, PrismaticJoint.translation, PrismaticJoint.body_to_parent,
    RevoluteJoint.body_to_parent, RevoluteJoint.rotation, rotAxisAngle, crossMat,
    Mat3.mulVec, Mat3.mul, Mat3.add, Mat3.smul, Mat3.id, Iso3.comp,
    Iso3.ofTranslation, Vec3.smul, Vec3.add, Vec3.sub] at hx

/-- C1 (amended): for every `PinSlotJoint` and all shifts, `body_to_parent` is
the ordered composition of `prism.translation()` — translation by offset along
`axis_v` — applied after the revolute sub-joint's `body_to_parent`; it equals
the product of the two primitive joints' own `body_to_parent` outputs exactly
when the two shift inputs coincide (in particular, for zero shifts, which
covers the spec's concrete composition-order test). -/
theorem pin_slot_body_to_parent_composition {K : Type} [LinearOrderedField K]
    (T : TrigOps K) (j : PinSlotJoint K) (parent_shift body_shift : Vec3 K)
    (h : parent_shift = body_shift) :
    PinSlotJoint.body_to_parent T j parent_shift body_shift
      = (j.prism.translation).comp (j.revo.body_to_parent T parent_shift body_shift) ∧
    PinSlotJoint.body_to_parent T j parent_shift body_shift
      = (j.prism.body_to_parent parent_shift body_shift).comp
          (j.revo.body_to_parent T parent_shift body_shift) := by
  subst h
  refine ⟨rfl, ?_⟩
  refine Iso3.isoExt rfl ?_
  refine Vec3.vecExt ?_ ?_ ?_ <;>
    simp [PinSlotJoint.body_to_parent, PrismaticJoint.translation,
      PrismaticJoint.body_to_parent, RevoluteJoint.body_to_parent, Iso3.comp,
      Iso3.ofTranslation, Vec3.smul, Vec3.add, Vec3.sub, Mat3.id, Mat3.mulVec]

/-- Witness for the amended C1 at the claim's concrete inputs with zero
shifts. -/
theorem pin_slot_body_to_parent_composition_witness :
    ((⟨0, 0, 0⟩ : Vec3 ℝ) = ⟨0, 0, 0⟩) ∧
    PinSlotJoint.body_to_parent (⟨Real.cos, Real.sin⟩ : TrigOps ℝ)
        (PinSlotJoint.new ⟨1, 0, 0⟩ ⟨0, 0, 1⟩ 2 (Real.pi / 2)) ⟨0, 0, 0⟩ ⟨0, 0, 0⟩
      = (PrismaticJoint.body_to_parent
            (PinSlotJoint.new ⟨1, 0, 0⟩ ⟨0, 0, 1⟩ (2 : ℝ) (Real.pi / 2)).prism
            ⟨0, 0, 0⟩ ⟨0, 0, 0⟩).comp
          (RevoluteJoint.body_to_parent (⟨Real.cos, Real.sin⟩ : TrigOps ℝ)
            (PinSlotJoint.new ⟨1, 0, 0⟩ ⟨0, 0, 1⟩ (2 : ℝ) (Real.pi / 2)).revo
            ⟨0, 0, 0⟩ ⟨0, 0, 0⟩) :=
  ⟨rfl,
    (pin_slot_body_to_parent_composition (⟨Real.cos, Real.sin⟩ : TrigOps ℝ)
      (PinSlotJoint.new ⟨1, 0, 0⟩ ⟨0, 0, 1⟩ 2 (Real.pi / 2)) ⟨0, 0, 0⟩ ⟨0, 0, 0⟩
      rfl).2⟩

end NPhysics
